import Mathlib

/-!
Verification of the command mediation pipeline of `deepseek_orchestrator.py`:
`CommandValidator`, `CommandExecutor`, `DeepSeekOrchestrator.process_request`,
`DeepSeekOrchestrator.extract_command` and `TriggerFileHandler.on_created`,
embedded shallowly.  Python strings are Lean `String`s; Python string methods
(`strip`, `split`, `startswith`, substring `in`) are modelled by executable
functions over the underlying character lists.  External effects (the
inference backend, the interactive approval gate, the operating system's
process launch, the filesystem) are passed in as explicit oracle values, and
the audit log / filesystem writes are returned as explicit traces.
-/

namespace DeepSeekOrch

/-- Model of Python `str.strip()` on the left side. -/
def ltrimList (l : List Char) : List Char := l.dropWhile (fun c => c.isWhitespace)

/-- Model of Python `str.strip()` on the right side. -/
def rtrimList (l : List Char) : List Char :=
  (l.reverse.dropWhile (fun c => c.isWhitespace)).reverse

/-- Model of Python `str.strip()`. -/
def pyStrip (s : String) : String := ⟨rtrimList (ltrimList s.data)⟩

/-- Model of Python `str.startswith(pre)`. -/
def pyStartswith (pre s : String) : Bool := pre.data.isPrefixOf s.data

/-- Model of the Python substring test `pat in s`. -/
def pyContains (s pat : String) : Bool :=
  s.data.tails.any (fun t => pat.data.isPrefixOf t)

/-- Model of Python `s[n:]` (drop the first `n` characters). -/
def pyDropChars (s : String) (n : Nat) : String := ⟨s.data.drop n⟩

/-- Splitting a character list at every character satisfying `p`, keeping
empty fields; the underlying operation of Python `str.split(sep)`.  The
result is always non-empty. -/
def splitFields (p : Char → Bool) (l : List Char) : List (List Char) :=
  match l with
  | [] => [[]]
  | c :: t =>
    if p c then [] :: splitFields p t
    else
      match splitFields p t with
      | [] => [[c]]
      | h :: r => (c :: h) :: r

/-- Model of Python `str.split()` (split on whitespace, no empty fields). -/
def pySplitWs (s : String) : List String :=
  ((splitFields (fun c => c.isWhitespace) s.data).map (fun l => ⟨l⟩)).filter
    (fun t => t ≠ "")

/-- The line splitting of Python `response.split('\n')`. -/
def splitLinesList (l : List Char) : List (List Char) :=
  splitFields (fun c => c = '\n') l

/-- Model of Python `response.split('\n')`. -/
def pySplitLines (s : String) : List String :=
  (splitLinesList s.data).map (fun l => ⟨l⟩)

/-- Join of character-list lines with `'\n'`, the model of `'\n'.join`. -/
def joinLinesList : List (List Char) → List Char
  | [] => []
  | [x] => x
  | x :: y :: t => x ++ '\n' :: joinLinesList (y :: t)

/-- Model of Python `'\n'.join(lines)`. -/
def pyJoinLines (xs : List String) : String := ⟨joinLinesList (xs.map String.data)⟩

/-- Python `repr` of a boolean, as written into result files. -/
def pyBool (b : Bool) : String := if b then "True" else "False"

/-- A single-quote character, used in validator reason strings. -/
def sq : String := ⟨[Char.ofNat 39]⟩

/-! ## Security policy and `CommandValidator` -/

/-- The `security` section of the configuration (`CommandValidator.__init__`).
The Python sets are modelled as lists; only membership and emptiness are
used, plus a first-match scan for the blacklist reason. -/
structure SecurityConfig where
  whitelist : List String
  blacklist : List String
  require_approval_for : List String
deriving DecidableEq

/-- The default `security` section of `DeepSeekOrchestrator.load_config`. -/
def default_security : SecurityConfig :=
  ⟨["ls", "cat", "echo", "pwd", "date", "whoami"],
   ["rm -rf", "dd", "mkfs"],
   ["docker", "git", "systemctl"]⟩

/-- The hard-coded `dangerous_patterns` list of `CommandValidator.validate`. -/
def dangerous_patterns : List String :=
  ["rm -rf /", "dd if=", "> /dev/", "chmod 777", "curl | sh"]

/-- `command.split()[0] if command.split() else ""` -/
def base_command (command : String) : String := (pySplitWs command).headD ""

/-- `CommandValidator.validate` (orchestrator lines 177-204). -/
def validate (cfg : SecurityConfig) (command : String) : Bool × String :=
  if pyStrip command = "" then (false, "Empty command")
  else
    match cfg.blacklist.find? (fun blocked => pyContains command blocked) with
    | some blocked => (false, "Command contains blacklisted pattern: " ++ blocked)
    | none =>
      if cfg.whitelist ≠ [] ∧ base_command command ∉ cfg.whitelist then
        (false, "Command " ++ sq ++ base_command command ++ sq ++ " not in whitelist")
      else
        match dangerous_patterns.find? (fun pat => pyContains command pat) with
        | some pat => (false, "Command contains dangerous pattern: " ++ pat)
        | none => (true, "Valid")

/-- `CommandValidator.needs_approval` (orchestrator lines 206-209). -/
def needs_approval (cfg : SecurityConfig) (command : String) : Bool :=
  cfg.require_approval_for.contains (base_command command)

/-! ## `CommandExecutor` -/

/-- `CommandResult` dataclass.  `execution_time` (a Python float measuring
wall-clock seconds) is modelled as a rational. -/
structure CommandResult where
  success : Bool
  stdout : String
  stderr : String
  return_code : Int
  execution_time : ℚ
deriving DecidableEq

/-- Oracle describing what the operating system did with the spawned
process: normal completion (with captured output, return code and measured
elapsed time), `subprocess.TimeoutExpired`, or any other raised exception
(with its message and the elapsed time at the point of failure). -/
inductive LaunchOutcome where
  | completed (stdout stderr : String) (returncode : Int) (elapsed : ℚ)
  | timedOut
  | failed (msg : String) (elapsed : ℚ)
deriving DecidableEq

/-- `CommandExecutor.execute` (orchestrator lines 218-266). -/
def execute (timeout : Nat) (command : String) (dry_run : Bool)
    (launch : LaunchOutcome) : CommandResult :=
  if dry_run then ⟨true, "[DRY RUN] " ++ command, "", 0, 0⟩
  else
    match launch with
    | .completed o e rc el => ⟨rc == 0, o, e, rc, el⟩
    | .timedOut =>
        ⟨false, "", "Command timed out after " ++ toString timeout ++ " seconds",
         -1, (timeout : ℚ)⟩
    | .failed msg el => ⟨false, "", msg, -1, el⟩

/-! ## Inference -/

/-- `DeepSeekInference.infer` (orchestrator lines 139-152), for the
model-backed path.  The backend call is an oracle: `Except.ok text` is a
successful response (the code strips it), `Except.error e` is a raised
exception, which the code converts to the string `"Error: " ++ e`. -/
def infer (backend : Except String String) : String :=
  match backend with
  | Except.ok text => pyStrip text
  | Except.error e => "Error: " ++ e

/-! ## `extract_command` -/

/-- The `prefixes_to_remove` list of `DeepSeekOrchestrator.extract_command`. -/
def prefixes_to_remove : List String :=
  ["I suggest running:", "You should run:", "Try running:",
   "Execute:", "Command:", "Run:", "$", "#"]

/-- The sequential marker-stripping loop of `extract_command`
(lines 437-439): each marker is tested, in order, against the current
text; on a match the marker is removed and the remainder stripped. -/
def strip_markers (r : String) : String :=
  prefixes_to_remove.foldl
    (fun resp p => if pyStartswith p resp then pyStrip (pyDropChars resp p.length) else resp) r

/-- The markdown code-fence handling of `extract_command` (lines 442-444):
a text starting with a triple backtick is split into lines; if there are
more than two lines, the first and last are dropped and the rest rejoined,
otherwise the text becomes empty. -/
def strip_fence (response : String) : String :=
  if pyStartswith "```" response then
    let lines := pySplitLines response
    if lines.length > 2 then pyJoinLines ((lines.drop 1).dropLast) else ""
  else response

/-- `DeepSeekOrchestrator.extract_command` (orchestrator lines 421-446). -/
def extract_command (response : String) : Option String :=
  if pyStrip (strip_fence (strip_markers (pyStrip response))) = "" then none
  else some (pyStrip (strip_fence (strip_markers (pyStrip response))))

/-! ## Audit records and `process_request` -/

/-- One row of the audit log as produced by `AuditLogger.log_event`;
keyword arguments that a call site does not pass are `none` (SQL NULL).
Field order: event_type, trigger_source, deepseek_input, deepseek_output,
suggested_command, approved, executed, execution_result, user_feedback. -/
structure AuditRecord where
  event_type : String
  trigger_source : Option String
  deepseek_input : Option String
  deepseek_output : Option String
  suggested_command : Option String
  approved : Option Bool
  executed : Option Bool
  execution_result : Option String
  user_feedback : Option String
deriving DecidableEq

/-- `json.dumps` of the execution result dictionary (line 410). -/
def serializeResult (r : CommandResult) : String :=
  "\x7b\"success\": " ++ pyBool r.success ++
  ", \"stdout\": \"" ++ r.stdout ++
  "\", \"stderr\": \"" ++ r.stderr ++
  "\", \"return_code\": " ++ toString r.return_code ++
  ", \"execution_time\": " ++ toString r.execution_time ++ "\x7d"

/-- `ExecutionMode` enum. -/
inductive ExecutionMode where
  | auto_approve
  | prompt
  | dry_run
  | audit_only
deriving DecidableEq

/-- The outcome of one `DeepSeekOrchestrator.process_request` call: the
value returned to the caller, the audit rows written during the call (in
order), and whether `CommandExecutor.execute` was invoked. -/
structure ProcessOutput where
  result : Option CommandResult
  records : List AuditRecord
  didExecute : Bool
deriving DecidableEq

/-- `DeepSeekOrchestrator.process_request` (orchestrator lines 312-419).
External collaborators are oracles: `backend` is the inference call's
outcome, `approvalAnswer` the approval gate's reply (consulted only when
approval is required), `launch` the operating system's behaviour for the
spawned process. -/
def process_request (cfg : SecurityConfig) (mode : ExecutionMode) (timeout : Nat)
    (trigger_source user_input : String)
    (backend : Except String String) (approvalAnswer : Bool)
    (launch : LaunchOutcome) : ProcessOutput :=
  match extract_command (infer backend) with
  | none =>
      ⟨none,
       [⟨"no_command_extracted", some trigger_source, some user_input,
         some (infer backend), none, none, none, none, none⟩],
       false⟩
  | some suggested_command =>
      if (validate cfg suggested_command).1 = false then
        ⟨none,
         [⟨"validation_failed", some trigger_source, some user_input,
           some (infer backend), some suggested_command,
           some false, some false, some (validate cfg suggested_command).2, none⟩],
         false⟩
      else
        if (if decide (mode = ExecutionMode.prompt) ||
              needs_approval cfg suggested_command then approvalAnswer else true) = false then
          ⟨none,
           [⟨"user_rejected", some trigger_source, some user_input,
             some (infer backend), some suggested_command,
             some false, some false, none, none⟩],
           false⟩
        else if mode = ExecutionMode.audit_only then
          ⟨none,
           [⟨"audit_only", some trigger_source, some user_input,
             some (infer backend), some suggested_command,
             some true, some false, none, none⟩],
           false⟩
        else
          ⟨some (execute timeout suggested_command
              (decide (mode = ExecutionMode.dry_run)) launch),
           [⟨"command_executed", some trigger_source, some user_input,
             some (infer backend), some suggested_command,
             some true, some true,
             some (serializeResult (execute timeout suggested_command
               (decide (mode = ExecutionMode.dry_run)) launch)), none⟩],
           true⟩

/-! ## `TriggerFileHandler` -/

/-- The final path component, `PurePath.name`. -/
def baseName (p : String) : String :=
  ((splitFields (fun c => c = '/') p.data).map (fun l => (⟨l⟩ : String))).getLastD ""

/-- `PurePath.suffix`: the extension of the final component, from its last
dot, empty when the name has no dot, starts with a dot, or ends in a dot. -/
def pathSuffix (p : String) : String :=
  let name := baseName p
  match name.data.reverse.findIdx? (fun c => c = '.') with
  | none => ""
  | some k =>
    let i := name.data.length - 1 - k
    if 0 < i ∧ i < name.data.length - 1 then ⟨name.data.drop i⟩ else ""

/-- `PurePath.with_suffix(suf)` for a path that has a suffix: the suffix is
replaced by `suf`. -/
def withSuffix (p : String) (suf : String) : String :=
  ⟨p.data.take (p.data.length - (pathSuffix p).data.length)⟩ ++ suf

/-- The text written to the `.result` file by `TriggerFileHandler.on_created`
(lines 551-559): an execution report when the pipeline returned a result,
a fixed rejection notice otherwise. -/
def result_text (res : Option CommandResult) : String :=
  match res with
  | some r =>
      "Success: " ++ pyBool r.success ++ "\n" ++
      "Return code: " ++ toString r.return_code ++ "\n" ++
      "\n--- Output ---\n" ++ r.stdout ++ "\n" ++
      (if r.stderr ≠ "" then "\n--- Errors ---\n" ++ r.stderr ++ "\n" else "")
  | none => "Request was not executed (validation failed or rejected)\n"

/-- An observable filesystem mutation performed by the trigger handler. -/
inductive FsOp where
  | writeFile (path : String) (content : String)
  | removeFile (path : String)
deriving DecidableEq

/-- Oracle for `open(file_path).read()`: the file's content, or a raised
`OSError`. -/
inductive ReadOutcome where
  | ok (content : String)
  | err (msg : String)
deriving DecidableEq

/-- Oracle for the `.result` write: success, or an exception raised during
the write after `written` characters made it to disk. -/
inductive WriteOutcome where
  | ok
  | err (written : String)
deriving DecidableEq

/-- `TriggerFileHandler.on_created` (orchestrator lines 528-565), as the
trace of filesystem mutations it performs.  Directories and files whose
suffix is neither `.flag` nor `.task` are ignored; otherwise the file is
read, the request runs through `process_request`, the report is written to
the sibling `.result` file, and only then is the trigger file removed.  Any
exception (read or write failure) is caught and stops the handler, so a
failed write never reaches the removal step. -/
def on_created (cfg : SecurityConfig) (mode : ExecutionMode) (timeout : Nat)
    (backend : Except String String) (approvalAnswer : Bool) (launch : LaunchOutcome)
    (is_directory : Bool) (src_path : String)
    (readRes : ReadOutcome) (writeRes : WriteOutcome) : List FsOp :=
  if is_directory then []
  else if pathSuffix src_path ∉ [".flag", ".task"] then []
  else
    match readRes with
    | .err _ => []
    | .ok content =>
      let request := pyStrip content
      let out := process_request cfg mode timeout ("file:" ++ baseName src_path)
        request backend approvalAnswer launch
      let result_path := withSuffix src_path ".result"
      match writeRes with
      | .err written => [FsOp.writeFile result_path written]
      | .ok =>
          [FsOp.writeFile result_path (result_text out.result),
           FsOp.removeFile src_path]

end DeepSeekOrch

namespace DeepSeekOrch

/-- Claim C1: for every command string containing one of the dangerous patterns
and every policy, `validate` returns reject (`ok = false`), even when the
command's base command is a member of a non-empty whitelist. -/
theorem dangerous_pattern_always_rejected (cfg : SecurityConfig) (command : String)
    (h : ∃ p ∈ dangerous_patterns, pyContains command p = true) :
    (validate cfg command).1 = false := by
  obtain ⟨p, hp, hc⟩ := h
  unfold validate
  split
  · rfl
  · split
    · rfl
    · split
      · rfl
      · split
        · rfl
        · rename_i heq
          rw [List.find?_eq_none] at heq
          exact absurd hc (by simpa using heq p hp)

theorem dangerous_pattern_always_rejected_witness :
    (∃ p ∈ dangerous_patterns, pyContains "rm -rf / --force" p = true) ∧
    base_command "rm -rf / --force" = "rm" ∧
    "rm" ∈ (⟨["rm"], [], []⟩ : SecurityConfig).whitelist ∧
    (validate ⟨["rm"], [], []⟩ "rm -rf / --force").1 = false :=
  ⟨by decide, by decide, by decide,
   dangerous_pattern_always_rejected ⟨["rm"], [], []⟩ "rm -rf / --force" (by decide)⟩

/-- Claim C2, counterexample: for the policy with blacklist `rm -rf` the command
`rm -rf /` contains the dangerous pattern `rm -rf /`, yet `validate` rejects it
with the blacklist reason, which does not even contain the dangerous pattern:
the dangerous-pattern check is not performed before the blacklist check. -/
theorem dangerous_reason_counterexample :
    validate ⟨[], ["rm -rf"], []⟩ "rm -rf /" =
      (false, "Command contains blacklisted pattern: rm -rf") ∧
    "rm -rf /" ∈ dangerous_patterns ∧
    pyContains "rm -rf /" "rm -rf /" = true ∧
    pyContains "Command contains blacklisted pattern: rm -rf" "rm -rf /" = false :=
  ⟨by decide, by decide, by decide, by decide⟩

/-- Claim C2, amended: every command containing a `dangerousPatterns` entry is
rejected, but the dangerous-pattern check runs AFTER the blacklist and
whitelist checks: a blacklist match is reported with the blacklist reason, and
only a command that passes the blacklist and whitelist checks is rejected with
a reason naming the (first matching) dangerous pattern. -/
theorem validate_check_order (cfg : SecurityConfig) (command : String)
    (hne : ¬ pyStrip command = "") :
    (∀ blocked, cfg.blacklist.find? (fun b => pyContains command b) = some blocked →
      validate cfg command = (false, "Command contains blacklisted pattern: " ++ blocked)) ∧
    (cfg.blacklist.find? (fun b => pyContains command b) = none →
      ¬ (cfg.whitelist ≠ [] ∧ base_command command ∉ cfg.whitelist) →
      ∀ p, dangerous_patterns.find? (fun pat => pyContains command pat) = some p →
        validate cfg command = (false, "Command contains dangerous pattern: " ++ p)) := by
  constructor
  · intro blocked hb
    unfold validate
    rw [if_neg hne, hb]
  · intro hb hw p hd
    unfold validate
    rw [if_neg hne, hb]
    dsimp only
    rw [if_neg hw, hd]

theorem validate_check_order_witness :
    validate ⟨["rm"], [], []⟩ "rm -rf / --force" =
      (false, "Command contains dangerous pattern: rm -rf /") :=
  (validate_check_order ⟨["rm"], [], []⟩ "rm -rf / --force" (by decide)).2
    (by decide) (by decide) "rm -rf /" (by decide)

/-- Claim C5: `CommandExecutor.execute` never raises past its boundary; a
launch failure yields `success = false`, `returnCode = -1` with `stderr`
carrying the failure description, and a timeout yields `success = false`,
`returnCode = -1`, `stderr` indicating the timeout and `elapsed` equal to the
configured timeout. -/
theorem executor_failure_contract (timeout : Nat) (command msg : String) (el : ℚ) :
    execute timeout command false (LaunchOutcome.failed msg el) =
      ⟨false, "", msg, -1, el⟩ ∧
    execute timeout command false LaunchOutcome.timedOut =
      ⟨false, "", "Command timed out after " ++ toString timeout ++ " seconds", -1,
       (timeout : ℚ)⟩ :=
  ⟨rfl, rfl⟩

/-- Claim C8, counterexample: a whitespace-only command is rejected, but the
reason string is `Empty command` (capital E), not `empty command`. -/
theorem empty_reason_counterexample :
    validate ⟨[], [], []⟩ " " = (false, "Empty command") ∧
      ("Empty command" : String) ≠ "empty command" :=
  ⟨by decide, by decide⟩

/-- Claim C8, amended: for every empty or whitespace-only command string and
every policy, `validate` rejects with the reason string `Empty command`. -/
theorem empty_command_rejected (cfg : SecurityConfig) (command : String)
    (h : pyStrip command = "") :
    validate cfg command = (false, "Empty command") := by
  unfold validate
  rw [if_pos h]

theorem empty_command_rejected_witness :
    pyStrip "  " = "" ∧ validate default_security "  " = (false, "Empty command") :=
  ⟨by decide, empty_command_rejected default_security "  " (by decide)⟩

end DeepSeekOrch

namespace DeepSeekOrch

/-- Claim C4: every invocation of `process_request` writes exactly one audit
record before returning, and in every record written, `executed = true`
implies `approved = true` and a non-null `execution_result`. -/
theorem exactly_one_audit_record (cfg : SecurityConfig) (mode : ExecutionMode)
    (timeout : Nat) (src inp : String) (backend : Except String String)
    (appr : Bool) (launch : LaunchOutcome) :
    (process_request cfg mode timeout src inp backend appr launch).records.length = 1 ∧
    (process_request cfg mode timeout src inp backend appr launch).records.all
      (fun r => !(r.executed == some true) ||
        ((r.approved == some true) && r.execution_result.isSome)) = true := by
  unfold process_request
  cases extract_command (infer backend) with
  | none => exact ⟨rfl, rfl⟩
  | some cmd =>
    cases hval : (validate cfg cmd).1 <;>
      cases mode <;>
      cases hna : needs_approval cfg cmd <;>
      cases appr <;>
      simp only [hval, hna] <;>
      exact ⟨rfl, rfl⟩

/-- Claim C6: for every validated command, approval is required iff the mode is
`Prompt` or the base command is in `require_approval_for` (when not required
the gate's answer is irrelevant); when required and the gate answers `false`,
the pipeline terminates with a single `user_rejected` record carrying
`approved = false`, `executed = false`, and the command is not executed. -/
theorem approval_gate_behaviour (cfg : SecurityConfig) (mode : ExecutionMode)
    (timeout : Nat) (src inp : String) (backend : Except String String)
    (launch : LaunchOutcome) (cmd : String)
    (hx : extract_command (infer backend) = some cmd)
    (hv : (validate cfg cmd).1 = true) :
    ((decide (mode = ExecutionMode.prompt) || needs_approval cfg cmd) = false →
      ∀ a b : Bool,
        process_request cfg mode timeout src inp backend a launch =
        process_request cfg mode timeout src inp backend b launch) ∧
    ((decide (mode = ExecutionMode.prompt) || needs_approval cfg cmd) = true →
      process_request cfg mode timeout src inp backend false launch =
        ⟨none, [⟨"user_rejected", some src, some inp, some (infer backend), some cmd,
                some false, some false, none, none⟩], false⟩) := by
  constructor
  · intro hno a b
    unfold process_request
    simp only [hx, hv, hno]
    rfl
  · intro hyes
    unfold process_request
    simp only [hx, hv, hyes]
    rfl

end DeepSeekOrch

namespace DeepSeekOrch

lemma dropWhile_self_idem (p : Char → Bool) (l : List Char) :
    (l.dropWhile p).dropWhile p = l.dropWhile p := by
  induction l with
  | nil => rfl
  | cons a t ih =>
    by_cases h : p a
    · simp [List.dropWhile_cons, h, ih]
    · simp [List.dropWhile_cons, h]

lemma rtrimList_append (a b : List Char) :
    rtrimList (a ++ b) =
      if rtrimList b = [] then rtrimList a else a ++ rtrimList b := by
  unfold rtrimList
  rw [List.reverse_append, List.dropWhile_append]
  by_cases h : (b.reverse.dropWhile (fun c => c.isWhitespace)).isEmpty
  · rw [if_pos h, if_pos]
    rw [List.isEmpty_iff] at h
    rw [h, List.reverse_nil]
  · rw [if_neg h, if_neg]
    · rw [List.reverse_append, List.reverse_reverse]
    · rw [List.isEmpty_iff] at h
      intro hc
      exact h (by simpa using congrArg List.reverse hc)

lemma rtrimList_idem (l : List Char) : rtrimList (rtrimList l) = rtrimList l := by
  unfold rtrimList
  rw [List.reverse_reverse, dropWhile_self_idem]

lemma pyStrip_error_head (e : String) :
    pyStrip ("Error: " ++ e) =
      ⟨'E' :: 'r' :: 'r' :: 'o' :: 'r' :: ':' :: rtrimList (' ' :: e.data)⟩ := by
  unfold pyStrip
  have hd : ("Error: " ++ e).data = 'E' :: 'r' :: 'r' :: 'o' :: 'r' :: ':' :: ' ' :: e.data := rfl
  rw [hd]
  have hl : ltrimList ('E' :: 'r' :: 'r' :: 'o' :: 'r' :: ':' :: ' ' :: e.data) =
      ['E','r','r','o','r',':'] ++ (' '::e.data) := rfl
  rw [hl, rtrimList_append]
  by_cases h : rtrimList (' ' :: e.data) = []
  · rw [if_pos h, h]
    rfl
  · rw [if_neg h]
    rfl

lemma pyStrip_error_fixed (l : List Char) :
    pyStrip ⟨'E' :: 'r' :: 'r' :: 'o' :: 'r' :: ':' :: rtrimList l⟩ =
      ⟨'E' :: 'r' :: 'r' :: 'o' :: 'r' :: ':' :: rtrimList l⟩ := by
  unfold pyStrip
  have hl : ltrimList ('E' :: 'r' :: 'r' :: 'o' :: 'r' :: ':' :: rtrimList l) =
      ['E','r','r','o','r',':'] ++ rtrimList l := rfl
  show (⟨rtrimList (ltrimList ('E' :: 'r' :: 'r' :: 'o' :: 'r' :: ':' :: rtrimList l))⟩ : String) = _
  rw [hl, rtrimList_append, rtrimList_idem]
  by_cases h : rtrimList l = []
  · rw [if_pos h, h]
    rfl
  · rw [if_neg h]
    rfl

lemma strip_markers_error_head (l : List Char) :
    strip_markers ⟨'E' :: 'r' :: 'r' :: 'o' :: 'r' :: ':' :: l⟩ =
      ⟨'E' :: 'r' :: 'r' :: 'o' :: 'r' :: ':' :: l⟩ := rfl

lemma strip_fence_error_head (l : List Char) :
    strip_fence ⟨'E' :: 'r' :: 'r' :: 'o' :: 'r' :: ':' :: l⟩ =
      ⟨'E' :: 'r' :: 'r' :: 'o' :: 'r' :: ':' :: l⟩ := rfl

lemma extract_command_error (e : String) :
    extract_command (infer (Except.error e)) =
      some (pyStrip ("Error: " ++ e)) := by
  show extract_command ("Error: " ++ e) = _
  unfold extract_command
  rw [pyStrip_error_head, strip_markers_error_head, strip_fence_error_head,
    pyStrip_error_fixed]
  rw [if_neg]
  intro hc
  have := congrArg String.data hc
  simp at this

end DeepSeekOrch
namespace DeepSeekOrch

/-- Claim C3, counterexample: when the inference backend raises (here with
message `boom`), the request does not end with `no_command_extracted`: the
string `Error: boom` is extracted as a command and fails validation instead
(under the default whitelist), producing `validation_failed`. -/
theorem backend_error_counterexample :
    (process_request default_security ExecutionMode.prompt 30 "cli" "deploy"
        (Except.error "boom") false LaunchOutcome.timedOut).records.map
      (fun r => r.event_type) = ["validation_failed"] ∧
    ("validation_failed" : String) ≠ "no_command_extracted" :=
  ⟨by decide, by decide⟩

/-- Claim C3, amended: a failed inference call is converted by `infer` into the
suggestion `Error: <description>`, which `extract_command` passes through as a
non-empty command (no marker matches it), so the pipeline validates it as a
command; an inference failure never produces the `no_command_extracted`
event. -/
theorem backend_error_passthrough :
    (∀ e : String, extract_command (infer (Except.error e)) =
      some (pyStrip ("Error: " ++ e))) ∧
    (∀ (cfg : SecurityConfig) (mode : ExecutionMode) (timeout : Nat)
        (src inp e : String) (appr : Bool) (launch : LaunchOutcome),
      (process_request cfg mode timeout src inp (Except.error e) appr launch).records.map
        (fun r => r.event_type) ≠ ["no_command_extracted"]) := by
  constructor
  · exact extract_command_error
  · intro cfg mode timeout src inp e appr launch
    unfold process_request
    rw [extract_command_error e]
    cases hval : (validate cfg (pyStrip ("Error: " ++ e))).1 <;>
      cases mode <;>
      cases hna : needs_approval cfg (pyStrip ("Error: " ++ e)) <;>
      cases appr <;>
      simp [hval, hna]

end DeepSeekOrch

namespace DeepSeekOrch

lemma data_append (a b : String) : (a ++ b).data = a.data ++ b.data := rfl

lemma result_text_ne_empty (o : Option CommandResult) : result_text o ≠ "" := by
  cases o with
  | none => decide
  | some r =>
    intro h
    have hd := congrArg String.data h
    simp [result_text, data_append] at hd

end DeepSeekOrch
namespace DeepSeekOrch

lemma on_created_cases (cfg : SecurityConfig) (mode : ExecutionMode) (timeout : Nat)
    (backend : Except String String) (appr : Bool) (launch : LaunchOutcome)
    (isdir : Bool) (p : String) (readRes : ReadOutcome) (writeRes : WriteOutcome) :
    on_created cfg mode timeout backend appr launch isdir p readRes writeRes = [] ∨
    (∃ w, on_created cfg mode timeout backend appr launch isdir p readRes writeRes =
      [FsOp.writeFile (withSuffix p ".result") w]) ∨
    (∃ c, on_created cfg mode timeout backend appr launch isdir p readRes writeRes =
      [FsOp.writeFile (withSuffix p ".result") c, FsOp.removeFile p] ∧ c ≠ "") := by
  cases isdir with
  | true => left; rfl
  | false =>
    by_cases hs : pathSuffix p ∈ [".flag", ".task"]
    · cases readRes with
      | err m => left; simp [on_created, hs]
      | ok content =>
        cases writeRes with
        | err w => right; left; exact ⟨w, by simp [on_created, hs]⟩
        | ok =>
          right; right
          refine ⟨result_text (process_request cfg mode timeout ("file:" ++ baseName p)
            (pyStrip content) backend appr launch).result, ?_, result_text_ne_empty _⟩
          simp [on_created, hs]
    · left; simp [on_created, hs]

end DeepSeekOrch
namespace DeepSeekOrch

/-- Claim C7: in every trace of `TriggerFileHandler.on_created`, a removal of
the trigger file occurs only after a write of the same-base-name `.result`
file with non-empty content — for executed and rejected requests alike, and
for every read/write failure pattern. -/
theorem task_deleted_only_after_result (cfg : SecurityConfig) (mode : ExecutionMode)
    (timeout : Nat) (backend : Except String String) (appr : Bool)
    (launch : LaunchOutcome) (isdir : Bool) (p : String)
    (readRes : ReadOutcome) (writeRes : WriteOutcome) (i : Nat)
    (hi : i < (on_created cfg mode timeout backend appr launch isdir p readRes writeRes).length)
    (hrem : (on_created cfg mode timeout backend appr launch isdir p readRes writeRes).get ⟨i, hi⟩ =
      FsOp.removeFile p) :
    ∃ j, j < i ∧
      ∃ hj : j < (on_created cfg mode timeout backend appr launch isdir p readRes writeRes).length,
        ∃ c, (on_created cfg mode timeout backend appr launch isdir p readRes writeRes).get ⟨j, hj⟩ =
          FsOp.writeFile (withSuffix p ".result") c ∧ c ≠ "" := by
  rcases on_created_cases cfg mode timeout backend appr launch isdir p readRes writeRes with
    h | ⟨w, h⟩ | ⟨c, h, hc⟩
  · rw [h] at hi
    exact absurd hi (by simp)
  · have hi' := hi
    rw [h] at hi'
    simp only [List.length_cons, List.length_nil] at hi'
    have hi0 : i = 0 := by omega
    subst hi0
    rw [List.get_eq_getElem] at hrem
    simp only [h] at hrem
    exact absurd hrem (by simp)
  · have hi' := hi
    rw [h] at hi'
    simp only [List.length_cons, List.length_nil] at hi'
    have hi2 : i < 2 := by omega
    rw [List.get_eq_getElem] at hrem
    simp only [h] at hrem
    interval_cases i
    · exact absurd hrem (by simp)
    · refine ⟨0, by omega, ?_⟩
      have hj : 0 < (on_created cfg mode timeout backend appr launch isdir p readRes writeRes).length := by
        rw [h]; simp
      refine ⟨hj, c, ?_, hc⟩
      rw [List.get_eq_getElem]
      simp only [h]
      rfl

end DeepSeekOrch
namespace DeepSeekOrch

theorem approval_gate_behaviour_witness :
    process_request default_security ExecutionMode.prompt 30 "cli" "list files"
        (Except.ok "ls -la") false LaunchOutcome.timedOut =
      ⟨none, [⟨"user_rejected", some "cli", some "list files", some (infer (Except.ok "ls -la")),
              some "ls -la", some false, some false, none, none⟩], false⟩ :=
  (approval_gate_behaviour default_security ExecutionMode.prompt 30 "cli" "list files"
    (Except.ok "ls -la") LaunchOutcome.timedOut "ls -la" (by decide) (by decide)).2 (by decide)

theorem task_deleted_only_after_result_witness :
    ∃ j, j < 1 ∧
      ∃ hj : j < (on_created default_security ExecutionMode.auto_approve 30
        (Except.ok "echo hi") true (LaunchOutcome.completed "hi" "" 0 1)
        false "x.task" (ReadOutcome.ok "say hi") WriteOutcome.ok).length,
        ∃ c, (on_created default_security ExecutionMode.auto_approve 30
          (Except.ok "echo hi") true (LaunchOutcome.completed "hi" "" 0 1)
          false "x.task" (ReadOutcome.ok "say hi") WriteOutcome.ok).get ⟨j, hj⟩ =
            FsOp.writeFile (withSuffix "x.task" ".result") c ∧ c ≠ "" :=
  task_deleted_only_after_result default_security ExecutionMode.auto_approve 30
    (Except.ok "echo hi") true (LaunchOutcome.completed "hi" "" 0 1)
    false "x.task" (ReadOutcome.ok "say hi") WriteOutcome.ok 1 (by decide) (by decide)

/-- Claim C10: `on_created` processes a newly created file iff its suffix is
`.task` or `.flag`: for either suffix the full pipeline runs, a same-base-name
`.result` file is written and the trigger file removed; directories and files
with any other suffix are ignored (no processing, no result file, no
deletion). -/
theorem flag_and_task_both_trigger (cfg : SecurityConfig) (mode : ExecutionMode)
    (timeout : Nat) (backend : Except String String) (appr : Bool)
    (launch : LaunchOutcome) :
    (∀ (isdir : Bool) (p : String) (readRes : ReadOutcome) (writeRes : WriteOutcome),
      isdir = true ∨ pathSuffix p ∉ [".flag", ".task"] →
      on_created cfg mode timeout backend appr launch isdir p readRes writeRes = []) ∧
    (∀ (p content : String),
      pathSuffix p ∈ [".flag", ".task"] →
      on_created cfg mode timeout backend appr launch false p
          (ReadOutcome.ok content) WriteOutcome.ok =
        [FsOp.writeFile (withSuffix p ".result")
          (result_text (process_request cfg mode timeout ("file:" ++ baseName p)
            (pyStrip content) backend appr launch).result),
         FsOp.removeFile p]) := by
  constructor
  · intro isdir p readRes writeRes h
    rcases h with h | h
    · rw [h]; rfl
    · cases isdir with
      | true => rfl
      | false => simp [on_created, h]
  · intro p content h
    simp [on_created, h]

theorem flag_and_task_both_trigger_witness :
    on_created default_security ExecutionMode.auto_approve 30 (Except.ok "echo hi") true
        (LaunchOutcome.completed "hi" "" 0 1) false "x.flag"
        (ReadOutcome.ok "say hi") WriteOutcome.ok =
      [FsOp.writeFile (withSuffix "x.flag" ".result")
        (result_text (process_request default_security ExecutionMode.auto_approve 30
          ("file:" ++ baseName "x.flag") (pyStrip "say hi") (Except.ok "echo hi") true
          (LaunchOutcome.completed "hi" "" 0 1)).result),
       FsOp.removeFile "x.flag"] :=
  (flag_and_task_both_trigger default_security ExecutionMode.auto_approve 30
    (Except.ok "echo hi") true (LaunchOutcome.completed "hi" "" 0 1)).2
    "x.flag" "say hi" (by decide)

end DeepSeekOrch

namespace DeepSeekOrch

lemma splitFields_no_sep (p : Char → Bool) (x : List Char)
    (h : ∀ c ∈ x, p c = false) : splitFields p x = [x] := by
  induction x with
  | nil => rfl
  | cons a t ih =>
    rw [splitFields, h a (List.mem_cons_self a t),
      ih (fun c hc => h c (List.mem_cons_of_mem a hc))]
    rfl

lemma splitFields_append_sep (p : Char → Bool) (x r : List Char) (sep : Char)
    (hx : ∀ c ∈ x, p c = false) (hsep : p sep = true) :
    splitFields p (x ++ sep :: r) = x :: splitFields p r := by
  induction x with
  | nil =>
    rw [List.nil_append, splitFields, hsep]
    rfl
  | cons a t ih =>
    rw [List.cons_append, splitFields, hx a (List.mem_cons_self a t),
      ih (fun c hc => hx c (List.mem_cons_of_mem a hc))]
    rfl

lemma splitLines_joinLines (ls : List (List Char)) (hne : ls ≠ [])
    (hfree : ∀ l ∈ ls, ∀ c ∈ l, c ≠ '\n') :
    splitLinesList (joinLinesList ls) = ls := by
  induction ls with
  | nil => exact absurd rfl hne
  | cons x t ih =>
    cases t with
    | nil =>
      show splitFields (fun c => c = '\n') (joinLinesList [x]) = [x]
      exact splitFields_no_sep _ x
        (fun c hc => decide_eq_false (hfree x (List.mem_cons_self x []) c hc))
    | cons y u =>
      show splitFields (fun c => c = '\n') (x ++ '\n' :: joinLinesList (y :: u)) = _
      rw [splitFields_append_sep _ x _ '\n'
        (fun c hc => decide_eq_false (hfree x (List.mem_cons_self x (y :: u)) c hc))
        (by decide)]
      rw [show splitFields (fun c => c = '\n') (joinLinesList (y :: u)) =
        splitLinesList (joinLinesList (y :: u)) from rfl]
      rw [ih (by simp) (fun l hl => hfree l (List.mem_cons_of_mem x hl))]

lemma split_join (xs : List String) (hne : xs ≠ [])
    (hfree : ∀ s ∈ xs, ∀ c ∈ s.data, c ≠ '\n') :
    pySplitLines (pyJoinLines xs) = xs := by
  unfold pySplitLines pyJoinLines
  rw [splitLines_joinLines (xs.map String.data)
    (by simpa using hne)
    (by intro l hl c hc
        rcases List.mem_map.mp hl with ⟨s, hs, rfl⟩
        exact hfree s hs c hc)]
  rw [List.map_map]
  have hid : ((fun (l : List Char) => (⟨l⟩ : String)) ∘ String.data) = id :=
    funext fun s => rfl
  rw [hid, List.map_id]

lemma isPrefixOf_append_char (l x y : List Char) (h : l.isPrefixOf x = true) :
    l.isPrefixOf (x ++ y) = true := by
  rw [List.isPrefixOf_iff_prefix] at h ⊢
  exact h.trans (List.prefix_append x y)

end DeepSeekOrch
namespace DeepSeekOrch

/-- Claim C9, counterexample: for the fenced response with no closing fence
consisting of the lines ` ``` `, `ls`, `pwd`, `extract_command` returns
`ls` — the interior non-fence line `pwd` is discarded, so not all interior
lines are kept. -/
theorem fence_interior_counterexample :
    extract_command "```\nls\npwd" = some "ls" ∧
      (some "ls" : Option String) ≠ some "ls\npwd" :=
  ⟨by decide, by decide⟩

/-- Claim C9, amended: a response that (after marker stripping) starts with a
triple backtick is split into lines and the FIRST and LAST lines are dropped,
the rest joined: when the last line is the closing fence this keeps exactly
the interior lines, but an unterminated block also loses its final line, and
a fenced text of at most two lines becomes empty; and whenever extraction
yields nothing, the pipeline terminates with the single audit record
`no_command_extracted`. -/
theorem fence_drops_first_and_last_line :
    (∀ (opening : String) (body : List String),
      pyStartswith "```" opening = true →
      (∀ c ∈ opening.data, c ≠ '\n') →
      (∀ s ∈ body, ∀ c ∈ s.data, c ≠ '\n') →
      strip_fence (pyJoinLines (opening :: body)) = pyJoinLines body.dropLast) ∧
    (∀ (cfg : SecurityConfig) (mode : ExecutionMode) (timeout : Nat)
        (src inp : String) (backend : Except String String) (appr : Bool)
        (launch : LaunchOutcome),
      extract_command (infer backend) = none →
      process_request cfg mode timeout src inp backend appr launch =
        ⟨none, [⟨"no_command_extracted", some src, some inp, some (infer backend),
                none, none, none, none, none⟩], false⟩) := by
  constructor
  · intro opening body hpre hop hbody
    have hfree : ∀ s ∈ (opening :: body), ∀ c ∈ s.data, c ≠ '\n' := by
      intro s hs
      rcases List.mem_cons.mp hs with rfl | hs
      · exact hop
      · exact hbody s hs
    have hsplit : pySplitLines (pyJoinLines (opening :: body)) = opening :: body :=
      split_join _ (by simp) hfree
    have hcond : pyStartswith "```" (pyJoinLines (opening :: body)) = true := by
      rcases body with _ | ⟨b, bt⟩
      · exact hpre
      · exact isPrefixOf_append_char _ _ _ hpre
    unfold strip_fence
    rw [if_pos hcond, hsplit]
    rcases body with _ | ⟨b1, bt⟩
    · rw [if_neg (by simp)]
      rfl
    · rcases bt with _ | ⟨b2, bu⟩
      · rw [if_neg (by simp)]
        rfl
      · rw [if_pos (by simp)]
        rfl
  · intro cfg mode timeout src inp backend appr launch h
    unfold process_request
    rw [h]

end DeepSeekOrch
